import Mathlib

/-!
Verification development for the db-assistant repository.

The definitions below are a shallow embedding of the schema-inference,
schema-cache, query-execution, result-formatting and mode-selection logic of
src/backend/combined_server.py, with the sibling variants in
src/backend/mongo_server.py and src/backend/combined_server_test.py embedded
where they differ.  External effects (the MongoDB and SQL drivers, json.loads,
matplotlib) are passed in as explicit parameters standing for the outcome of
the corresponding call.
-/

namespace DBAssistant

/-! ### String primitives

Python string operations are modelled character-wise (Lean string literals
hold the same character lists), so that every definition evaluates by kernel
reduction on concrete inputs. -/

/-- Python `str.upper()` for the ASCII inputs at hand. -/
def pyUpper (s : String) : String := String.mk (s.toList.map Char.toUpper)

/-- Python `str.lower()` for the ASCII inputs at hand. -/
def pyLower (s : String) : String := String.mk (s.toList.map Char.toLower)

/-- Python `str.strip()`: whitespace removed from both ends. -/
def pyTrim (s : String) : String :=
  String.mk (((s.toList.dropWhile Char.isWhitespace).reverse.dropWhile Char.isWhitespace).reverse)

/-- Python `str.startswith(prefix)`. -/
def pyStartsWith (s pre : String) : Bool :=
  pre.toList.isPrefixOf s.toList

/-- Python `str.replace("|", "\\|")`, applied character-wise. -/
def escapePipes (s : String) : String :=
  String.mk (s.toList.foldr (fun c acc => if c == '|' then '\\' :: '|' :: acc else c :: acc) [])

/-- Lexicographic comparison of character lists, the order under which
Python `sorted` arranges strings. -/
def strLeChars : List Char → List Char → Bool
  | [], _ => true
  | _ :: _, [] => false
  | a :: as, b :: bs =>
      if a < b then true
      else if b < a then false
      else strLeChars as bs

/-- Lexicographic string order (Python string comparison on the code points
at hand). -/
def strLe (a b : String) : Bool := strLeChars a.toList b.toList

/-- Insert a string into a sorted list of strings. -/
def sortedInsert (x : String) : List String → List String
  | [] => [x]
  | y :: ys => if strLe x y then x :: y :: ys else y :: sortedInsert x ys

/-- Insertion sort realising Python `sorted` on a list of strings. -/
def sortStrings : List String → List String
  | [] => []
  | x :: xs => sortedInsert x (sortStrings xs)

/-- A Python runtime value as it appears in a MongoDB document.  The
constructors cover the value kinds the servers handle specially:
`vDoc`/`vList` (rendered via json.dumps), `vId` (bson ObjectId, rendered via
str), and the scalar kinds.  Floats are not modelled. -/
inductive MValue where
  | vInt (n : Int)
  | vStr (s : String)
  | vBool (b : Bool)
  | vId (oid : String)
  | vList (xs : List MValue)
  | vDoc (kvs : List (String × MValue))

/-- `type(value).__name__` for the modelled value kinds. -/
def MValue.typeName : MValue → String
  | .vInt _ => "int"
  | .vStr _ => "str"
  | .vBool _ => "bool"
  | .vId _ => "ObjectId"
  | .vList _ => "list"
  | .vDoc _ => "dict"

/-- A MongoDB document: an insertion-ordered mapping (Python dict) from field
names to values. -/
def Doc : Type := List (String × MValue)

/-- `doc.keys()`. -/
def Doc.keys (d : Doc) : List String := d.map Prod.fst

/-- `doc.get(field)`: first binding of the field, if any. -/
def Doc.get? (d : Doc) (field : String) : Option MValue :=
  List.lookup field d

/-- The inferred type slot of a schema entry: in the Python code it is either
a single type-name string or a list of type-name strings. -/
inductive TypeDesc where
  | single (t : String)
  | multi (ts : List String)
deriving DecidableEq

/-- One field entry of an inferred schema: the Python dict
`{"type": ..., "example": ...}` built by `infer_schema`
(mongo_server.py:94-111) and `cache_mongo_collection_schema`
(combined_server.py:239-255).  The source key `example` is a Lean keyword, so
the field is named `exampleVal`. -/
structure FieldInfo where
  type : TypeDesc
  exampleVal : MValue

/-- An inferred schema: an insertion-ordered dict from field name to
`FieldInfo`. -/
def Schema : Type := List (String × FieldInfo)

/-- Python dict assignment `schema[field] = info`: replace the binding in
place if the key exists, else append it (insertion order preserved). -/
def Schema.setField : Schema → String → FieldInfo → Schema
  | [], f, info => [(f, info)]
  | (k, i) :: rest, f, info =>
      if k == f then (f, info) :: rest else (k, i) :: Schema.setField rest f info

/-- Lookup in the schema dict. -/
def Schema.find? (s : Schema) (f : String) : Option FieldInfo :=
  List.lookup f s

/-- The per-field accumulation step of `infer_schema`
(mongo_server.py:103-111), identical in combined_server.py:248-255 and
combined_server_test.py:148-155:

* field unseen: record the single type and the value as example;
* recorded single type differing from the new type: become the two-element
  list in first-seen order;
* recorded type already a list (the Python comparison `list != str` is always
  true, so the branch is always taken): append the new type only if it is not
  already in the list.

The example value is written only in the first branch. -/
def updateFieldInfo (cur : Option FieldInfo) (ftype : String) (v : MValue) : FieldInfo :=
  match cur with
  | none => ⟨.single ftype, v⟩
  | some info =>
      match info.type with
      | .single t =>
          if !(t == ftype) then ⟨.multi [t, ftype], info.exampleVal⟩ else info
      | .multi ts =>
          if ts.contains ftype then info else ⟨.multi (ts ++ [ftype]), info.exampleVal⟩

/-- Processing of one `field, value` pair of a sampled document: the `_id`
field is skipped (`continue`), every other field goes through
`updateFieldInfo`. -/
def processField (s : Schema) (f : String) (v : MValue) : Schema :=
  if f == "_id" then s
  else Schema.setField s f (updateFieldInfo (Schema.find? s f) v.typeName v)

/-- `for field, value in doc.items(): ...` over one sampled document. -/
def processDoc (s : Schema) (d : Doc) : Schema :=
  d.foldl (fun acc kv => processField acc kv.1 kv.2) s

/-- `for doc in documents: ...` starting from a given schema accumulator. -/
def processDocs (s : Schema) (docs : List Doc) : Schema :=
  docs.foldl processDoc s

/-- `infer_schema` accumulation over the sampled documents, starting from the
empty dict `schema = {}`. -/
def inferSchema (docs : List Doc) : Schema :=
  processDocs [] docs

/-! ### Query input (document store)

`mongo_db_query` (combined_server.py:398-489) parses its string input with
json.loads into a dict of optional keys.  `QueryParams` is that dict; a field
is `none` when the key is absent. -/

structure QueryParams where
  collection : Option String := none
  filter : Option Doc := none
  projection : Option Doc := none
  sort : Option Doc := none
  skip : Option Int := none
  limit : Option Int := none
  pipeline : Option (List Doc) := none

/-- Python truthiness of `query_params.get("collection")`: false for an
absent key and for the empty string. -/
def truthyStr : Option String → Bool
  | none => false
  | some s => !(s == "")

/-- Python truthiness of an optional dict value: false for an absent key and
for the empty dict. -/
def truthyDoc : Option Doc → Bool
  | none => false
  | some d => !d.isEmpty

/-- Python truthiness of `query_params.get("pipeline")`: false for an absent
key and for the empty list, so `if pipeline:` takes the find branch on an
empty pipeline. -/
def truthyPipeline : Option (List Doc) → Bool
  | none => false
  | some p => !p.isEmpty

/-- What `mongo_db_query` asks the driver to run.  There is no rejecting
constructor: every parsed query with a collection name reaches the driver. -/
inductive MongoPlan where
  | aggregate (pipeline : List Doc)
  | find (filter : Doc) (projection : Option Doc) (sort : Option Doc)
      (skip : Int) (cap : Option Int)

/-- The dispatch of combined_server.py:413-434 (same control flow in
mongo_server.py:288-317 via execute_mongo_query, and in
combined_server_test.py:200-220):

* `if pipeline:` — a truthy pipeline is forwarded to `collection.aggregate`
  unchanged, and filter/projection/sort/skip/limit are not read;
* otherwise a find is built with `filter` defaulting to the empty dict,
  `skip` defaulting to 0, `limit` defaulting to 5, the sort applied only when
  truthy, and the cursor capped by `limit` only when `limit > 0`. -/
def mongoPlan (qp : QueryParams) : MongoPlan :=
  if truthyPipeline qp.pipeline then
    .aggregate (qp.pipeline.getD [])
  else
    let lim : Int := qp.limit.getD 5
    .find (qp.filter.getD []) qp.projection
      (if truthyDoc qp.sort then qp.sort else none)
      (qp.skip.getD 0)
      (if lim > 0 then some lim else none)

/-- Effect of the cursor cap on the matched documents: `cursor.limit(n)` on a
list of matches keeps the first `n`; no cap keeps them all. -/
def applyCap (cap : Option Int) (docs : List Doc) : List Doc :=
  match cap with
  | none => docs
  | some n => docs.take n.toNat

/-! ### Column computation (combined_server.py:441-450) -/

/-- `all_fields.update(doc.keys())`: add the keys not yet seen. -/
def addKey (acc : List String) (k : String) : List String :=
  if acc.contains k then acc else acc ++ [k]

/-- `all_fields`: the set of keys across all returned documents, represented
as the duplicate-free list of keys in first-seen order (the set itself is
unordered; the final listing is sorted below). -/
def allFields (docs : List Doc) : List String :=
  docs.foldl (fun acc d => d.keys.foldl addKey acc) []

/-- The condition of combined_server.py:447 under which `_id` is removed from
the column set: a find query (falsy pipeline) whose projection is falsy or
does not mention the `_id` key. -/
def removesId (qp : QueryParams) (docs : List Doc) : Bool :=
  !truthyPipeline qp.pipeline && (allFields docs).contains "_id"
    && (!truthyDoc qp.projection || !((qp.projection.getD []).keys.contains "_id"))

/-- `columns = sorted(list(all_fields))` after the conditional `_id` removal. -/
def computeColumns (qp : QueryParams) (docs : List Doc) : List String :=
  let fields := allFields docs
  let fields := if removesId qp docs then fields.erase "_id" else fields
  sortStrings fields

/-! ### Cell and table rendering (Result Formatter) -/

mutual

/-- `json.dumps` of a value, as used for nested structures in result cells.
The exact punctuation is immaterial to the verified claims. -/
def MValue.jsonDumps : MValue → String
  | .vInt n => toString n
  | .vStr s => "\"" ++ s ++ "\""
  | .vBool b => if b then "true" else "false"
  | .vId oid => "\"" ++ oid ++ "\""
  | .vList xs => "[" ++ jsonDumpsList xs ++ "]"
  | .vDoc kvs => "\x7b" ++ jsonDumpsKVs kvs ++ "\x7d"

/-- Comma-joined dumps of the elements of a list value. -/
def jsonDumpsList : List MValue → String
  | [] => ""
  | [x] => MValue.jsonDumps x
  | x :: y :: rest => MValue.jsonDumps x ++ ", " ++ jsonDumpsList (y :: rest)

/-- Comma-joined dumps of the bindings of a nested document. -/
def jsonDumpsKVs : List (String × MValue) → String
  | [] => ""
  | [kv] => "\"" ++ kv.1 ++ "\": " ++ MValue.jsonDumps kv.2
  | kv :: kw :: rest =>
      "\"" ++ kv.1 ++ "\": " ++ MValue.jsonDumps kv.2 ++ ", " ++ jsonDumpsKVs (kw :: rest)

end

/-- Python `str(value)` for the modelled scalar kinds; composite values fall
back to their serialized form (the source renders them via json.dumps before
reaching str). -/
def MValue.pyStr : MValue → String
  | .vInt n => toString n
  | .vStr s => s
  | .vBool b => if b then "True" else "False"
  | .vId oid => oid
  | v => v.jsonDumps

/-- One result cell of the document-store table
(combined_server.py:461-475): `doc.get(col, "")`, json.dumps for dict/list
values, str for ObjectId, then truncation past 50 characters to a 47-prefix
with an ellipsis, then escaping of the pipe delimiter. -/
def mongoCellStr (v : Option MValue) : String :=
  let rendered : String :=
    match v with
    | none => ""
    | some (.vList xs) => (MValue.vList xs).jsonDumps
    | some (.vDoc kvs) => (MValue.vDoc kvs).jsonDumps
    | some (.vId oid) => oid
    | some w => w.pyStr
  let truncated := if rendered.length > 50 then rendered.take 47 ++ "..." else rendered
  escapePipes truncated

/-- `row_values` of combined_server.py:460-475: one cell per column. -/
def mongoRowCells (columns : List String) (d : Doc) : List String :=
  columns.map (fun c => mongoCellStr (d.get? c))

/-- The lines of the markdown table built at combined_server.py:455-478:
header, separator, one line per document. -/
def mongoTableLines (docs : List Doc) (columns : List String) : List String :=
  ("| " ++ String.intercalate " | " columns ++ " |") ::
  ("| " ++ String.intercalate " | " (columns.map fun _ => "---") ++ " |") ::
  docs.map (fun d => "| " ++ String.intercalate " | " (mongoRowCells columns d) ++ " |")

/-- One result cell of the relational table (combined_server.py:669-675):
str, truncation past 50 characters, pipe escaping. -/
def sqlCellStr (v : MValue) : String :=
  let s := v.pyStr
  let truncated := if s.length > 50 then s.take 47 ++ "..." else s
  escapePipes truncated

/-- `formatted_row` of combined_server.py:669-675: one cell per tuple
component. -/
def sqlRowCells (row : List MValue) : List String :=
  row.map sqlCellStr

/-- The lines of the markdown table built at combined_server.py:662-677. -/
def sqlTableLines (rows : List (List MValue)) (columns : List String) : List String :=
  ("| " ++ String.intercalate " | " columns ++ " |") ::
  ("| " ++ String.intercalate " | " (columns.map fun _ => "---") ++ " |") ::
  rows.map (fun r => "| " ++ String.intercalate " | " (sqlRowCells r) ++ " |")

/-! ### Process-wide QueryResult state and the two executors -/

/-- Which backend `current_db_type` names. -/
inductive DbMode where
  | mongo
  | sql
deriving DecidableEq

/-- The payload held in the global `latest_query_result`: documents after a
MongoDB query, tuples after a SQL query. -/
inductive Payload where
  | mongoDocs (docs : List Doc)
  | sqlRows (rows : List (List MValue))

/-- The process-wide pair of globals
`latest_query_result, latest_query_columns`. -/
structure GState where
  latest_query_result : Option Payload
  latest_query_columns : Option (List String)

/-- Both globals set to None. -/
def clearedState : GState := ⟨none, none⟩

/-- Outcome of `json.loads(query_input)`: a parsed parameter dict or a
JSONDecodeError. -/
inductive ParseResult where
  | ok (qp : QueryParams)
  | jsonError

/-- `mongo_db_query` of combined_server.py:398-489 as a state transformer.
The driver call is the explicit parameter `dbExec` (its `.error` case stands
for a raised exception, caught at lines 485-489).  Error replies that echo
the raw input text are modelled without the echo; the claims do not read
those texts.  Control flow, state updates and the distinguished replies are
as in the source:

* wrong `current_db_type`: early error, state untouched;
* JSONDecodeError: both globals cleared (lines 481-484);
* falsy collection name: early return inside the try, state untouched;
* driver exception: both globals cleared;
* zero documents: distinguished reply, both globals cleared (lines 436-439);
* otherwise both globals overwritten with the documents and columns. -/
def mongoDbQuery (mode : DbMode) (input : ParseResult)
    (dbExec : MongoPlan → Except String (List Doc)) (st : GState) : String × GState :=
  if mode ≠ DbMode.mongo then
    ("Error: Currently connected to SQL database. Use set_current_db_type to switch to MongoDB.", st)
  else
    match input with
    | .jsonError => ("Error: Invalid JSON in query input", clearedState)
    | .ok qp =>
      if !truthyStr qp.collection then
        ("Error: Collection name is required", st)
      else
        match dbExec (mongoPlan qp) with
        | .error e => (s!"Error executing MongoDB query: {e}", clearedState)
        | .ok documents =>
          if documents.isEmpty then
            ("(no documents returned)", clearedState)
          else
            let columns := computeColumns qp documents
            (String.intercalate "\n" (mongoTableLines documents columns),
             ⟨some (.mongoDocs documents), some columns⟩)

/-- The SELECT-prefix gate of combined_server.py:637:
`query.strip().upper().startswith("SELECT")`. -/
def isSelectPrefixed (query : String) : Bool :=
  pyStartsWith (pyUpper (pyTrim query)) "SELECT"

/-- What the relational executor decides to do with its input before any
driver call. -/
inductive SqlAction where
  | reject (msg : String)
  | execute (q : String)
deriving DecidableEq

/-- The validation portion of `sql_db_query` (combined_server.py:629-640):
a mode check and the SELECT-prefix check.  `sql_db_query` contains no
dangerous-keyword scan; every SELECT-prefixed statement proceeds to the
driver. -/
def sqlDbQueryAction (mode : DbMode) (query : String) : SqlAction :=
  if mode ≠ DbMode.sql then
    .reject "Error: Currently connected to MongoDB. Use set_current_db_type to switch to SQL."
  else if !isSelectPrefixed query then
    .reject "Error: Only SELECT queries are allowed. Please provide a SELECT statement."
  else
    .execute query

/-- `sql_db_query` of combined_server.py:629-699 as a state transformer.
`dbExec` is the driver call returning rows and the result-set column names
(or a raised exception).  The available-tables context appended to the
exception reply at lines 686-699 is omitted from the modelled text; the
claims do not read it.  State behavior is as in the source: early rejections
leave the globals untouched, exceptions and empty results clear them, a
non-empty result overwrites them. -/
def sqlDbQuery (mode : DbMode) (query : String)
    (dbExec : String → Except String (List (List MValue) × List String))
    (st : GState) : String × GState :=
  match sqlDbQueryAction mode query with
  | .reject msg => (msg, st)
  | .execute q =>
    match dbExec q with
    | .error e => (s!"Error executing SQL query: {e}", clearedState)
    | .ok (rows, columns) =>
      if rows.isEmpty then
        ("(no rows returned)", clearedState)
      else
        (String.intercalate "\n" (sqlTableLines rows columns),
         ⟨some (.sqlRows rows), some columns⟩)

/-- Outcome of the precondition gate of `visualize_pie_chart`
(combined_server.py:727-730). -/
inductive ChartGate where
  | preconditionError (msg : String)
  | proceed
deriving DecidableEq

/-- The precondition gate of `visualize_pie_chart`: with
`latest_query_result is None` the renderer returns the missing-precondition
error; otherwise it proceeds to the pandas/matplotlib body (external I/O,
not modelled). -/
def visualizePieChartGate (st : GState) : ChartGate :=
  if st.latest_query_result.isNone then
    .preconditionError "Error: No query results available. Run a query first."
  else
    .proceed

/-! ### The dangerous-keyword scan (regex word-boundary search) -/

/-- A regex word character (`\w` for the ASCII inputs at hand). -/
def isWordChar (c : Char) : Bool := c.isAlphanum || c == '_'

/-- The keyword matches at the head of `s` with a word boundary after it. -/
def wholeWordAt (kw s : List Char) : Bool :=
  kw.isPrefixOf s &&
    (match s.drop kw.length with
     | [] => true
     | c :: _ => !isWordChar c)

/-- Scan over the positions of `s`; `prev` is the character before the
current position (none at the start of the string). -/
def containsWholeWordAux (kw : List Char) (prev : Option Char) : List Char → Bool
  | [] => false
  | c :: rest =>
      ((match prev with
        | none => true
        | some p => !isWordChar p) && wholeWordAt kw (c :: rest))
      || containsWholeWordAux kw (some c) rest

/-- `re.search(r"\bKW\b", query, re.IGNORECASE) is not None`: the keyword
occurs in the query as a whole word, case-insensitively (both sides
uppercased). -/
def containsWholeWord (kw query : String) : Bool :=
  containsWholeWordAux (pyUpper kw).toList none (pyUpper query).toList

/-- The keyword list of `sql_db_query_checker` (combined_server.py:586-595);
EXEC included. -/
def dangerousKeywords : List String :=
  ["DROP", "DELETE", "TRUNCATE", "UPDATE", "INSERT", "ALTER", "CREATE", "EXEC"]

/-- The keyword list of the test-variant `sql_db_query`
(combined_server_test.py:340); EXEC absent. -/
def dangerousKeywordsTest : List String :=
  ["DROP", "DELETE", "TRUNCATE", "UPDATE", "INSERT", "ALTER", "CREATE"]

/-- The dangerous-keyword loop of `sql_db_query_checker`
(combined_server.py:597-599): the first keyword found as a whole word, if
any, makes the checker return its rejection; the later checker stages
(dialect functions, table existence) are reached only when this returns
none. -/
def sqlDbQueryCheckerKeywordGate (query : String) : Option String :=
  dangerousKeywords.find? (fun kw => containsWholeWord kw query)

/-- The validation portion of the test-variant `sql_db_query`
(combined_server_test.py:329-343): availability check, SELECT-prefix check,
then the dangerous-keyword loop inside the executor itself. -/
def sqlDbQueryActionTest (sqlAvailable : Bool) (query : String) : SqlAction :=
  if !sqlAvailable then
    .reject "Error: SQL database is not available"
  else if !isSelectPrefixed query then
    .reject "Error: Only SELECT queries are allowed for SQL"
  else
    match dangerousKeywordsTest.find? (fun kw => containsWholeWord kw query) with
    | some kw => .reject (s!"Error: Dangerous SQL operation detected ({kw}). Only SELECT allowed.")
    | none => .execute query

/-! ### Schema cache staleness (combined_server.py:296-300, 551-556) -/

/-- The freshness test `(datetime.datetime.now() - cache_entry["timestamp"]).seconds < 3600`.
For a nonnegative difference, `timedelta.seconds` is the total difference in
seconds with whole days discarded, i.e. the total modulo 86400. -/
def cacheEntryIsRecent (now ts : Nat) : Bool :=
  (now - ts) % 86400 < 3600

/-- What a schema lookup does with the cache. -/
inductive SchemaLookup where
  | serveCached
  | recompute
deriving DecidableEq

/-- The cache consultation of `mongo_db_schema` / `sql_db_schema`: serve the
entry when one exists and the freshness test passes, otherwise fall through
to a fresh probe (cache miss or outdated cache). -/
def schemaCacheLookup (entryTimestamp : Option Nat) (now : Nat) : SchemaLookup :=
  match entryTimestamp with
  | none => .recompute
  | some ts => if cacheEntryIsRecent now ts then .serveCached else .recompute

/-! ### Backend availability and mode selection (combined_server.py:127-171) -/

/-- The two availability flags of `db_connections`. -/
structure ServerConfig where
  mongoAvailable : Bool
  sqlAvailable : Bool

/-- Whether the named backend is available. -/
def availableIn (cfg : ServerConfig) : DbMode → Bool
  | .mongo => cfg.mongoAvailable
  | .sql => cfg.sqlAvailable

/-- Startup selection of `current_db_type` (combined_server.py:127-136):
`sys.exit(1)` (modelled as none) when neither backend is available, else
MongoDB preferred, else SQL. -/
def startupSelect (cfg : ServerConfig) : Option DbMode :=
  if !cfg.mongoAvailable && !cfg.sqlAvailable then none
  else if cfg.mongoAvailable then some .mongo
  else some .sql

/-- `set_current_db_type` (combined_server.py:155-171): inputs other than
mongo/sql after lowercasing are rejected, as is a request for an unavailable
backend; only a valid available request changes `current_db_type`.  The
quoting of the echoed input in the first error text is omitted. -/
def setCurrentDbType (cfg : ServerConfig) (dbType : String) (current : Option DbMode) :
    String × Option DbMode :=
  if !(pyLower dbType == "mongo" || pyLower dbType == "sql") then
    (s!"Error: Invalid database type {dbType}. Valid options are mongo or sql.", current)
  else if pyLower dbType == "mongo" && !cfg.mongoAvailable then
    ("Error: MongoDB connection is not available.", current)
  else if pyLower dbType == "sql" && !cfg.sqlAvailable then
    ("Error: SQL database connection is not available.", current)
  else
    (s!"Database type set to: {pyLower dbType}",
     some (if pyLower dbType == "mongo" then DbMode.mongo else DbMode.sql))

/-- The filter a plan hands to the driver, if it is a find plan. -/
def MongoPlan.findFilter : MongoPlan → Option Doc
  | .find f _ _ _ _ => some f
  | .aggregate _ => none

/-- The cursor cap a plan applies, if it is a find plan. -/
def MongoPlan.findCap : MongoPlan → Option (Option Int)
  | .find _ _ _ _ cap => some cap
  | .aggregate _ => none

/-- A query whose pipeline key is present but holds the empty array, with a
filter and an uncapped limit. -/
def qpEmptyPipeA : QueryParams :=
  { collection := some "c", pipeline := some [],
    filter := some [("a", MValue.vInt 1)], limit := some 0 }

/-- Same as `qpEmptyPipeA` except for the filter value. -/
def qpEmptyPipeB : QueryParams :=
  { collection := some "c", pipeline := some [],
    filter := some [("a", MValue.vInt 2)], limit := some 0 }

/-- An aggregation query with a `$group` stage and no projection key. -/
def qpAggGroup : QueryParams :=
  { collection := some "c", pipeline := some [[("$group", MValue.vStr "g")]] }

/-- An aggregation query whose only stage is the write stage `$out`. -/
def qpOutStage : QueryParams :=
  { collection := some "c", pipeline := some [[("$out", MValue.vStr "c2")]] }

/-- An aggregation query whose only stage is the write stage `$merge`. -/
def qpMergeStage : QueryParams :=
  { collection := some "c",
    pipeline := some [[("$merge", MValue.vDoc [("into", MValue.vStr "c2")])]] }

/-- A `$match` aggregation that also carries a filter and a limit key. -/
def qpMatchWithFindKeysA : QueryParams :=
  { collection := some "c", pipeline := some [[("$match", MValue.vStr "m")]],
    filter := some [("x", MValue.vInt 1)], limit := some 3 }

/-- The same `$match` aggregation with different find keys (skip and sort
instead of filter and limit). -/
def qpMatchWithFindKeysB : QueryParams :=
  { collection := some "c", pipeline := some [[("$match", MValue.vStr "m")]],
    skip := some 9, sort := some [("x", MValue.vInt 1)] }

/-- A result of `qpAggGroup` whose single document carries the identity
field. -/
def aggDocsWithId : List Doc :=
  [[("_id", MValue.vInt 1), ("total", MValue.vInt 5)]]

/-- The cell list joined into the document-table header row
(combined_server.py:456): the column names themselves. -/
def mongoHeaderCells (columns : List String) : List String := columns

/-- The cell list joined into the relational-table header row
(combined_server.py:663): `str(col)` for each column. -/
def sqlHeaderCells (columns : List String) : List String :=
  columns.map toString

/-! ## Helper lemmas -/

theorem find?_setField_self (s : Schema) (f : String) (i : FieldInfo) :
    Schema.find? (Schema.setField s f i) f = some i := by
  induction s with
  | nil => simp [Schema.setField, Schema.find?, List.lookup]
  | cons kv rest ih =>
    obtain ⟨k, j⟩ := kv
    cases hkf : (k == f) with
    | true =>
      have hk : k = f := by simpa using hkf
      subst hk
      simp [Schema.setField, Schema.find?, List.lookup]
    | false =>
      have hne : ¬k = f := by simpa using hkf
      have hfk : (f == k) = false := by simpa using Ne.symm hne
      simpa [Schema.setField, hkf, Schema.find?, List.lookup, hfk] using ih

theorem find?_setField_ne (s : Schema) (f g : String) (i : FieldInfo) (h : g ≠ f) :
    Schema.find? (Schema.setField s f i) g = Schema.find? s g := by
  have hgf : (g == f) = false := by simpa [beq_eq_false_iff_ne] using h
  induction s with
  | nil => simp [Schema.setField, Schema.find?, List.lookup, hgf]
  | cons kv rest ih =>
    obtain ⟨k, j⟩ := kv
    cases hkf : (k == f) with
    | true =>
      have hk : k = f := by simpa [beq_iff_eq] using hkf
      have hgk : (g == k) = false := by simp [beq_eq_false_iff_ne, hk, h]
      simp [Schema.setField, hkf, Schema.find?, List.lookup, hgf, hgk]
    | false =>
      cases hgk : (g == k) with
      | true => simp [Schema.setField, hkf, Schema.find?, List.lookup, hgk]
      | false => simpa [Schema.setField, hkf, Schema.find?, List.lookup, hgk] using ih

/-- A multi-typed descriptor stays multi-typed with the same example through
one field-update, and the recorded type list only grows at the tail. -/
theorem updateFieldInfo_multi (ts : List String) (e : MValue) (t : String) (v : MValue) :
    ∃ ts', updateFieldInfo (some ⟨.multi ts, e⟩) t v = ⟨.multi ts', e⟩ ∧ ts <+: ts' := by
  by_cases h : t ∈ ts
  · exact ⟨ts, by simp [updateFieldInfo, h], List.prefix_refl ts⟩
  · exact ⟨ts ++ [t], by simp [updateFieldInfo, h], List.prefix_append ts [t]⟩

theorem processField_multi_preserved (s : Schema) (g : String) (v : MValue)
    (f : String) (ts : List String) (e : MValue)
    (h : Schema.find? s f = some ⟨.multi ts, e⟩) :
    ∃ ts', Schema.find? (processField s g v) f = some ⟨.multi ts', e⟩ ∧ ts <+: ts' := by
  by_cases hid : g = "_id"
  · exact ⟨ts, by simpa [processField, hid] using h, List.prefix_refl ts⟩
  · by_cases hf : g = f
    · subst hf
      obtain ⟨ts', hup, hpre⟩ := updateFieldInfo_multi ts e v.typeName v
      refine ⟨ts', ?_, hpre⟩
      simp only [processField, beq_iff_eq, hid, if_false]
      rw [find?_setField_self, h, hup]
    · refine ⟨ts, ?_, List.prefix_refl ts⟩
      simp only [processField, beq_iff_eq, hid, if_false]
      rw [find?_setField_ne s g f _ (Ne.symm hf)] at *
      exact h

theorem processDoc_multi_preserved (d : Doc) (s : Schema)
    (f : String) (ts : List String) (e : MValue)
    (h : Schema.find? s f = some ⟨.multi ts, e⟩) :
    ∃ ts', Schema.find? (processDoc s d) f = some ⟨.multi ts', e⟩ ∧ ts <+: ts' := by
  induction d generalizing s ts with
  | nil => exact ⟨ts, h, List.prefix_refl ts⟩
  | cons kv rest ih =>
    obtain ⟨ts₁, h₁, hpre₁⟩ := processField_multi_preserved s kv.1 kv.2 f ts e h
    obtain ⟨ts₂, h₂, hpre₂⟩ := ih (processField s kv.1 kv.2) ts₁ h₁
    exact ⟨ts₂, h₂, hpre₁.trans hpre₂⟩

theorem processDocs_multi_preserved (docs : List Doc) (s : Schema)
    (f : String) (ts : List String) (e : MValue)
    (h : Schema.find? s f = some ⟨.multi ts, e⟩) :
    ∃ ts', Schema.find? (processDocs s docs) f = some ⟨.multi ts', e⟩ ∧ ts <+: ts' := by
  induction docs generalizing s ts with
  | nil => exact ⟨ts, h, List.prefix_refl ts⟩
  | cons d rest ih =>
    obtain ⟨ts₁, h₁, hpre₁⟩ := processDoc_multi_preserved d s f ts e h
    obtain ⟨ts₂, h₂, hpre₂⟩ := ih (processDoc s d) ts₁ h₁
    exact ⟨ts₂, h₂, hpre₁.trans hpre₂⟩

theorem mem_sortedInsert (x y : String) (l : List String) :
    y ∈ sortedInsert x l ↔ y = x ∨ y ∈ l := by
  induction l with
  | nil => simp [sortedInsert]
  | cons z zs ih =>
    by_cases h : strLe x z
    · simp [sortedInsert, h]
    · simp [sortedInsert, h, ih]
      tauto

theorem sortedInsert_perm (x : String) (l : List String) :
    List.Perm (sortedInsert x l) (x :: l) := by
  induction l with
  | nil => simp [sortedInsert]
  | cons z zs ih =>
    by_cases h : strLe x z
    · simp [sortedInsert, h]
    · simp only [sortedInsert, h, if_neg, Bool.false_eq_true, not_false_eq_true, ite_false]
      exact (ih.cons z).trans (List.Perm.swap x z zs)

theorem sortStrings_perm (l : List String) : List.Perm (sortStrings l) l := by
  induction l with
  | nil => rfl
  | cons x xs ih => exact (sortedInsert_perm x (sortStrings xs)).trans (ih.cons x)

theorem strLeChars_total (a b : List Char) :
    strLeChars a b = true ∨ strLeChars b a = true := by
  induction a generalizing b with
  | nil => left; rfl
  | cons x xs ih =>
    cases b with
    | nil => right; rfl
    | cons y ys =>
      rcases lt_trichotomy x y with h | h | h
      · left; simp [strLeChars, h]
      · subst h
        simpa [strLeChars, lt_irrefl] using ih ys
      · right; simp [strLeChars, h]

theorem strLeChars_trans {a b c : List Char}
    (h1 : strLeChars a b = true) (h2 : strLeChars b c = true) :
    strLeChars a c = true := by
  induction a generalizing b c with
  | nil => rfl
  | cons x xs ih =>
    cases b with
    | nil => simp [strLeChars] at h1
    | cons y ys =>
      cases c with
      | nil => simp [strLeChars] at h2
      | cons z zs =>
        rcases lt_trichotomy x y with hxy | hxy | hxy
        · rcases lt_trichotomy y z with hyz | hyz | hyz
          · simp [strLeChars, lt_trans hxy hyz]
          · subst hyz
            simp [strLeChars, hxy]
          · simp [strLeChars, asymm hyz, hyz] at h2
        · subst hxy
          rcases lt_trichotomy x z with hyz | hyz | hyz
          · simp [strLeChars, hyz]
          · subst hyz
            simp only [strLeChars, lt_irrefl, if_false] at h1 h2 ⊢
            exact ih h1 h2
          · simp [strLeChars, asymm hyz, hyz] at h2
        · simp [strLeChars, asymm hxy, hxy] at h1

theorem strLe_total (a b : String) : strLe a b = true ∨ strLe b a = true :=
  strLeChars_total a.toList b.toList

theorem strLe_trans {a b c : String} (h1 : strLe a b = true) (h2 : strLe b c = true) :
    strLe a c = true :=
  strLeChars_trans h1 h2

theorem pairwise_sortedInsert (x : String) (l : List String)
    (h : l.Pairwise (fun a b => strLe a b = true)) :
    (sortedInsert x l).Pairwise (fun a b => strLe a b = true) := by
  induction l with
  | nil => simp [sortedInsert]
  | cons y ys ih =>
    rcases List.pairwise_cons.mp h with ⟨hy, hys⟩
    by_cases hxy : strLe x y
    · simp only [sortedInsert, hxy, if_true]
      refine List.Pairwise.cons ?_ h
      intro z hz
      rcases List.mem_cons.mp hz with rfl | hz'
      · exact hxy
      · exact strLe_trans hxy (hy z hz')
    · simp only [sortedInsert, hxy, Bool.false_eq_true, not_false_eq_true, if_neg, ite_false]
      refine List.Pairwise.cons ?_ (ih hys)
      intro z hz
      rcases (mem_sortedInsert x z ys).mp hz with hzx | hz'
      · rw [hzx]
        rcases strLe_total x y with htot | htot
        · exact absurd htot hxy
        · exact htot
      · exact hy z hz'

theorem pairwise_sortStrings (l : List String) :
    (sortStrings l).Pairwise (fun a b => strLe a b = true) := by
  induction l with
  | nil => simp [sortStrings]
  | cons x xs ih => exact pairwise_sortedInsert x (sortStrings xs) ih

theorem mem_addKey (acc : List String) (k c : String) :
    c ∈ addKey acc k ↔ c ∈ acc ∨ c = k := by
  by_cases h : k ∈ acc
  · have hc : acc.contains k = true := by simp [List.elem_eq_mem, h]
    simp only [addKey, hc, if_true]
    constructor
    · exact Or.inl
    · rintro (hm | rfl)
      · exact hm
      · exact h
  · have hc : acc.contains k = false := by simp [List.elem_eq_mem, h]
    simp [addKey, hc, h]


theorem nodup_addKey (acc : List String) (k : String) (h : acc.Nodup) :
    (addKey acc k).Nodup := by
  by_cases hk : k ∈ acc
  · simpa [addKey, hk] using h
  · simp [addKey, hk, List.nodup_append, h]

theorem mem_foldl_addKey (keys : List String) (acc : List String) (c : String) :
    c ∈ keys.foldl addKey acc ↔ c ∈ acc ∨ c ∈ keys := by
  induction keys generalizing acc with
  | nil => simp
  | cons k ks ih =>
    simp only [List.foldl_cons, ih, mem_addKey, List.mem_cons]
    tauto

theorem nodup_foldl_addKey (keys : List String) (acc : List String) (h : acc.Nodup) :
    (keys.foldl addKey acc).Nodup := by
  induction keys generalizing acc with
  | nil => exact h
  | cons k ks ih => exact ih (addKey acc k) (nodup_addKey acc k h)

theorem mem_foldl_docs (docs : List Doc) (acc : List String) (c : String) :
    c ∈ docs.foldl (fun a d => (Doc.keys d).foldl addKey a) acc
      ↔ c ∈ acc ∨ ∃ d, d ∈ docs ∧ c ∈ Doc.keys d := by
  induction docs generalizing acc with
  | nil => simp
  | cons d ds ih =>
    simp only [List.foldl_cons, ih, mem_foldl_addKey, List.mem_cons]
    constructor
    · rintro ((hc | hc) | ⟨d', hd', hc⟩)
      · exact Or.inl hc
      · exact Or.inr ⟨d, Or.inl rfl, hc⟩
      · exact Or.inr ⟨d', Or.inr hd', hc⟩
    · rintro (hc | ⟨d', (rfl | hd'), hc⟩)
      · exact Or.inl (Or.inl hc)
      · exact Or.inl (Or.inr hc)
      · exact Or.inr ⟨d', hd', hc⟩

theorem mem_allFields (docs : List Doc) (c : String) :
    c ∈ allFields docs ↔ ∃ d, d ∈ docs ∧ c ∈ Doc.keys d := by
  simpa [allFields] using mem_foldl_docs docs [] c

theorem nodup_allFields (docs : List Doc) : (allFields docs).Nodup := by
  have : ∀ acc : List String, acc.Nodup →
      (docs.foldl (fun a d => (Doc.keys d).foldl addKey a) acc).Nodup := by
    induction docs with
    | nil => intro acc h; exact h
    | cons d ds ih =>
      intro acc h
      exact ih ((Doc.keys d).foldl addKey acc) (nodup_foldl_addKey (Doc.keys d) acc h)
  simpa [allFields] using this [] List.nodup_nil

/-! ## Claims -/

/-- C7: the per-field type descriptor of the document schema prober obeys:
the first document exhibiting a field sets a single type and records that
value as the example; a later document with a different type turns the
descriptor into a first-seen-order list; a multi-typed field never collapses
back to a single type (and its type list only ever grows at the tail, so the
first-seen order is preserved); a new type is appended only when absent; the
example is never replaced; and sampling `{"a": 1}` then `{"a": "x"}` yields
types `["int", "str"]` with example `1`. -/
theorem C7_type_descriptor_accumulation :
    (∀ t v, updateFieldInfo none t v = ⟨.single t, v⟩)
    ∧ (∀ t t' v e, t ≠ t' →
        updateFieldInfo (some ⟨.single t, e⟩) t' v = ⟨.multi [t, t'], e⟩)
    ∧ (∀ ts t v e, t ∈ ts →
        updateFieldInfo (some ⟨.multi ts, e⟩) t v = ⟨.multi ts, e⟩)
    ∧ (∀ ts t v e, t ∉ ts →
        updateFieldInfo (some ⟨.multi ts, e⟩) t v = ⟨.multi (ts ++ [t]), e⟩)
    ∧ (∀ cur t v, (updateFieldInfo (some cur) t v).exampleVal = cur.exampleVal)
    ∧ (∀ s docs f ts e, Schema.find? s f = some ⟨.multi ts, e⟩ →
        ∃ ts', Schema.find? (processDocs s docs) f = some ⟨.multi ts', e⟩ ∧ ts <+: ts')
    ∧ inferSchema [[("a", MValue.vInt 1)], [("a", MValue.vStr "x")]]
        = [("a", ⟨.multi ["int", "str"], MValue.vInt 1⟩)] := by
  refine ⟨fun t v => rfl, ?_, ?_, ?_, ?_, ?_, rfl⟩
  · intro t t' v e h
    simp [updateFieldInfo, h]
  · intro ts t v e h
    simp [updateFieldInfo, h]
  · intro ts t v e h
    simp [updateFieldInfo, h]
  · intro cur t v
    obtain ⟨ty, e⟩ := cur
    cases ty with
    | single u => simp only [updateFieldInfo]; split <;> rfl
    | multi us => simp only [updateFieldInfo]; split <;> rfl
  · intro s docs f ts e h
    exact processDocs_multi_preserved docs s f ts e h

/-- Witness for C7 at concrete inputs. -/
theorem C7_type_descriptor_accumulation_witness :
    updateFieldInfo (some ⟨.single "int", MValue.vInt 1⟩) "str" (MValue.vStr "x")
      = ⟨.multi ["int", "str"], MValue.vInt 1⟩
    ∧ (∃ ts', Schema.find?
          (processDocs [("a", ⟨.multi ["int"], MValue.vInt 7⟩)] [[("a", MValue.vStr "y")]]) "a"
        = some ⟨.multi ts', MValue.vInt 7⟩ ∧ ["int"] <+: ts') :=
  ⟨C7_type_descriptor_accumulation.2.1 "int" "str" (MValue.vStr "x") (MValue.vInt 1) (by simp),
   C7_type_descriptor_accumulation.2.2.2.2.2.1
     [("a", ⟨.multi ["int"], MValue.vInt 7⟩)] [[("a", MValue.vStr "y")]] "a" ["int"]
     (MValue.vInt 7) rfl⟩

/-- C3: the schema-cache lookup serves an entry younger than one hour and
recomputes at exactly one hour, but — because the freshness test reads
`timedelta.seconds`, which discards whole days — an entry aged one day and
one minute (86460 s) is served from the cache again, although it is far past
the one-hour staleness window.  This evaluates the code at the failing
input. -/
theorem C3_staleness_window_violated :
    schemaCacheLookup (some 0) 1800 = .serveCached
    ∧ schemaCacheLookup (some 0) 3600 = .recompute
    ∧ schemaCacheLookup (some 0) 86460 = .serveCached
    ∧ 3600 ≤ 86460 - 0 :=
  ⟨rfl, rfl, rfl, by decide⟩

/-- C10: after a successful startup `current_db_type` names an available
backend (startup exits when neither is available), and `set_current_db_type`
rejects — with an error reply and an unchanged mode — every input that does
not lowercase to mongo/sql and every request for an unavailable backend, so
the availability invariant is preserved by every call. -/
theorem C10_mode_invariant :
    (∀ cfg m, startupSelect cfg = some m → availableIn cfg m = true)
    ∧ (∀ cfg : ServerConfig, cfg.mongoAvailable = false → cfg.sqlAvailable = false →
        startupSelect cfg = none)
    ∧ (∀ cfg inp cur, (∀ d, cur = some d → availableIn cfg d = true) →
        ∀ d', (setCurrentDbType cfg inp cur).2 = some d' → availableIn cfg d' = true)
    ∧ (∀ cfg inp cur, (pyLower inp == "mongo") = false → (pyLower inp == "sql") = false →
        setCurrentDbType cfg inp cur
          = (s!"Error: Invalid database type {inp}. Valid options are mongo or sql.", cur))
    ∧ (∀ cfg inp cur, (pyLower inp == "mongo") = true → cfg.mongoAvailable = false →
        setCurrentDbType cfg inp cur = ("Error: MongoDB connection is not available.", cur))
    ∧ (∀ cfg inp cur, (pyLower inp == "sql") = true → cfg.sqlAvailable = false →
        setCurrentDbType cfg inp cur = ("Error: SQL database connection is not available.", cur)) := by
  refine ⟨?_, ?_, ?_, ?_, ?_, ?_⟩
  · rintro ⟨m, s⟩ mode h
    cases m <;> cases s <;> simp [startupSelect] at h <;> simp [← h, availableIn]
  · rintro ⟨m, s⟩ hm hs
    subst hm; subst hs
    rfl
  · intro cfg inp cur hinv d' h
    by_cases hmo : pyLower inp = "mongo"
    · by_cases hav : cfg.mongoAvailable = true
      · simp [setCurrentDbType, hmo, hav] at h
        simp [availableIn, hav, ← h]
      · have hav' : cfg.mongoAvailable = false := by simpa using hav
        simp [setCurrentDbType, hmo, hav'] at h
        exact hinv d' h
    · by_cases hsq : pyLower inp = "sql"
      · by_cases hav : cfg.sqlAvailable = true
        · simp [setCurrentDbType, hmo, hsq, hav] at h
          simp [availableIn, hav, ← h]
        · have hav' : cfg.sqlAvailable = false := by simpa using hav
          simp [setCurrentDbType, hmo, hsq, hav'] at h
          exact hinv d' h
      · simp [setCurrentDbType, hmo, hsq] at h
        exact hinv d' h
  · intro cfg inp cur h1 h2
    have hm : ¬pyLower inp = "mongo" := by simpa using h1
    have hs : ¬pyLower inp = "sql" := by simpa using h2
    simp [setCurrentDbType, hm, hs]
  · intro cfg inp cur h1 h2
    have hm : pyLower inp = "mongo" := by simpa using h1
    simp [setCurrentDbType, hm, h2]
  · intro cfg inp cur h1 h2
    have hs : pyLower inp = "sql" := by simpa using h1
    simp [setCurrentDbType, hs, h2]

/-- Witness for C10 at concrete inputs. -/
theorem C10_mode_invariant_witness :
    availableIn ⟨false, true⟩ DbMode.sql = true
    ∧ setCurrentDbType ⟨true, false⟩ "SQL" (some DbMode.mongo)
        = ("Error: SQL database connection is not available.", some DbMode.mongo)
    ∧ setCurrentDbType ⟨true, true⟩ "postgres" (some DbMode.mongo)
        = ("Error: Invalid database type postgres. Valid options are mongo or sql.",
           some DbMode.mongo) :=
  ⟨C10_mode_invariant.1 ⟨false, true⟩ DbMode.sql rfl,
   C10_mode_invariant.2.2.2.2.2 ⟨true, false⟩ "SQL" (some DbMode.mongo) rfl rfl,
   C10_mode_invariant.2.2.2.1 ⟨true, true⟩ "postgres" (some DbMode.mongo) rfl rfl⟩

/-- C1 counterexample: the statement `SELECT 1; DROP TABLE t` contains DROP
as a whole word, yet `sql_db_query` (which only prefix-checks for SELECT)
proceeds to execute it; and the test-variant `sql_db_query`, whose keyword
list omits EXEC, proceeds to execute a SELECT containing EXEC as a whole
word.  Both contradict the claim that `sql_db_query` rejects every statement
containing one of the eight keywords. -/
theorem C1_counterexample :
    containsWholeWord "DROP" "SELECT 1; DROP TABLE t" = true
    ∧ sqlDbQueryAction .sql "SELECT 1; DROP TABLE t"
        = .execute "SELECT 1; DROP TABLE t"
    ∧ containsWholeWord "EXEC" "SELECT EXEC(1) FROM t" = true
    ∧ sqlDbQueryActionTest true "SELECT EXEC(1) FROM t"
        = .execute "SELECT EXEC(1) FROM t" :=
  ⟨rfl, rfl, rfl, rfl⟩

/-- C1 amended: `sql_db_query` in combined_server.py rejects exactly the
statements whose trimmed text does not start with SELECT (case-insensitive)
and attempts execution of every statement that does, even one containing a
denied keyword; the whole-word, case-insensitive scan for the eight keywords
(EXEC included) lives in the separate checker tool `sql_db_query_checker`,
which flags any statement containing one of them; the test-variant
`sql_db_query` performs the scan inside the executor but only for the seven
keywords without EXEC, rejecting on a hit and executing otherwise. -/
theorem C1_select_gate_and_keyword_gate_location :
    (∀ q, isSelectPrefixed q = false →
      sqlDbQueryAction .sql q
        = .reject "Error: Only SELECT queries are allowed. Please provide a SELECT statement.")
    ∧ (∀ q, isSelectPrefixed q = true → sqlDbQueryAction .sql q = .execute q)
    ∧ (∀ q kw, kw ∈ dangerousKeywords → containsWholeWord kw q = true →
        (sqlDbQueryCheckerKeywordGate q).isSome = true)
    ∧ (∀ q kw, isSelectPrefixed q = true → kw ∈ dangerousKeywordsTest →
        containsWholeWord kw q = true →
        ∃ msg, sqlDbQueryActionTest true q = .reject msg)
    ∧ (∀ q, isSelectPrefixed q = true →
        (∀ kw, kw ∈ dangerousKeywordsTest → containsWholeWord kw q = false) →
        sqlDbQueryActionTest true q = .execute q) := by
  refine ⟨?_, ?_, ?_, ?_, ?_⟩
  · intro q h
    simp [sqlDbQueryAction, h]
  · intro q h
    simp [sqlDbQueryAction, h]
  · intro q kw hmem hword
    have : ∃ x, x ∈ dangerousKeywords ∧ containsWholeWord x q = true := ⟨kw, hmem, hword⟩
    simpa [sqlDbQueryCheckerKeywordGate, List.find?_isSome] using this
  · intro q kw hsel hmem hword
    have hsome : (dangerousKeywordsTest.find? (fun k => containsWholeWord k q)).isSome = true := by
      simpa [List.find?_isSome] using ⟨kw, hmem, hword⟩
    obtain ⟨kwHit, hkwHit⟩ := Option.isSome_iff_exists.mp hsome
    refine ⟨s!"Error: Dangerous SQL operation detected ({kwHit}). Only SELECT allowed.", ?_⟩
    simp [sqlDbQueryActionTest, hsel, hkwHit]
  · intro q hsel hnone
    have : dangerousKeywordsTest.find? (fun k => containsWholeWord k q) = none := by
      simp only [List.find?_eq_none]
      intro x hx
      simp [hnone x hx]
    simp [sqlDbQueryActionTest, hsel, this]

/-- Witness for the amended C1 at concrete inputs. -/
theorem C1_select_gate_witness :
    sqlDbQueryAction .sql "SELECT name FROM artists" = .execute "SELECT name FROM artists"
    ∧ sqlDbQueryAction .sql "SHOW TABLES"
        = .reject "Error: Only SELECT queries are allowed. Please provide a SELECT statement."
    ∧ (sqlDbQueryCheckerKeywordGate "SELECT 1; TRUNCATE x").isSome = true
    ∧ (∃ msg, sqlDbQueryActionTest true "SELECT 1; DELETE FROM t" = .reject msg)
    ∧ sqlDbQueryActionTest true "SELECT name FROM artists" = .execute "SELECT name FROM artists" :=
  ⟨C1_select_gate_and_keyword_gate_location.2.1 "SELECT name FROM artists" rfl,
   C1_select_gate_and_keyword_gate_location.1 "SHOW TABLES" rfl,
   C1_select_gate_and_keyword_gate_location.2.2.1 "SELECT 1; TRUNCATE x" "TRUNCATE"
     (by simp [dangerousKeywords]) rfl,
   C1_select_gate_and_keyword_gate_location.2.2.2.1 "SELECT 1; DELETE FROM t" "DELETE"
     rfl (by simp [dangerousKeywordsTest]) rfl,
   C1_select_gate_and_keyword_gate_location.2.2.2.2 "SELECT name FROM artists" rfl
     (by intro kw hkw; fin_cases hkw <;> rfl)⟩

/-- C2: the document-store executor contains no write-stage gate at all.  A
pipeline whose only stage is `$out` (and likewise `$merge`) is planned as a
plain aggregation and handed to `collection.aggregate` unchanged — the third
conjunct drives the executor with a probe backend and shows the write-stage
pipeline reaches the aggregate call — contradicting the required rejection
of write-operation stages. -/
theorem C2_pipeline_write_stage_forwarded :
    mongoPlan qpOutStage = .aggregate [[("$out", MValue.vStr "c2")]]
    ∧ mongoPlan qpMergeStage
      = .aggregate [[("$merge", MValue.vDoc [("into", MValue.vStr "c2")])]]
    ∧ (mongoDbQuery .mongo (.ok qpOutStage)
        (fun p => match p with
          | .aggregate _ => .error "pipeline forwarded to aggregate"
          | .find _ _ _ _ _ => .error "find executed")
        clearedState).1
      = "Error executing MongoDB query: pipeline forwarded to aggregate" :=
  ⟨rfl, rfl, rfl⟩

/-- C5 counterexample: two queries whose pipeline key is present (holding the
empty array) but whose filters differ produce different executed plans, so
the filter key does have an effect although a pipeline is present — the
Python truthiness test `if pipeline:` routes an empty pipeline to the find
branch. -/
theorem C5_counterexample :
    qpEmptyPipeA.pipeline = some [] ∧ qpEmptyPipeB.pipeline = some []
    ∧ (mongoPlan qpEmptyPipeA).findFilter = some [("a", MValue.vInt 1)]
    ∧ (mongoPlan qpEmptyPipeB).findFilter = some [("a", MValue.vInt 2)]
    ∧ mongoPlan qpEmptyPipeA ≠ mongoPlan qpEmptyPipeB := by
  refine ⟨rfl, rfl, rfl, rfl, ?_⟩
  intro h
  have h1 : (mongoPlan qpEmptyPipeA).findFilter = some [("a", MValue.vInt 1)] := rfl
  rw [h] at h1
  have h2 : (mongoPlan qpEmptyPipeB).findFilter = some [("a", MValue.vInt 2)] := rfl
  rw [h1] at h2
  simp at h2

/-- C5 amended: for a find call (falsy pipeline — absent or empty): an
omitted limit caps the cursor at 5 documents, so at most 5 are returned; a
limit of exactly 0 leaves the cursor uncapped.  For every call whose
pipeline is present and non-empty, the executed plan depends only on the
pipeline: filter, projection, sort, skip and limit have no effect.  (A
present-but-empty pipeline is executed as a find, and the find keys retain
their effect.) -/
theorem C5_find_defaults_and_nonempty_pipeline :
    (∀ qp, qp.limit = none → truthyPipeline qp.pipeline = false →
      (mongoPlan qp).findCap = some (some 5))
    ∧ (∀ docs, (applyCap (some 5) docs).length ≤ 5)
    ∧ (∀ qp, qp.limit = some 0 → truthyPipeline qp.pipeline = false →
      (mongoPlan qp).findCap = some none)
    ∧ (∀ docs, applyCap none docs = docs)
    ∧ (∀ qp qp', truthyPipeline qp.pipeline = true → qp.pipeline = qp'.pipeline →
        mongoPlan qp = mongoPlan qp') := by
  refine ⟨?_, ?_, ?_, ?_, ?_⟩
  · intro qp h1 h2
    simp [mongoPlan, h1, h2, MongoPlan.findCap]
  · intro docs
    simp [applyCap]
  · intro qp h1 h2
    simp [mongoPlan, h1, h2, MongoPlan.findCap]
  · intro docs
    rfl
  · intro qp qp' h1 h2
    have h1' : truthyPipeline qp'.pipeline = true := h2 ▸ h1
    simp [mongoPlan, h1, h1', h2]

/-- Witness for the amended C5 at concrete inputs. -/
theorem C5_find_defaults_witness :
    (mongoPlan { collection := some "c" }).findCap = some (some 5)
    ∧ ((applyCap (some 5)
        [[("a", MValue.vInt 1)], [("a", MValue.vInt 2)], [("a", MValue.vInt 3)],
         [("a", MValue.vInt 4)], [("a", MValue.vInt 5)], [("a", MValue.vInt 6)]]).length ≤ 5)
    ∧ (mongoPlan qpEmptyPipeA).findCap = some none
    ∧ mongoPlan qpMatchWithFindKeysA = mongoPlan qpMatchWithFindKeysB :=
  ⟨C5_find_defaults_and_nonempty_pipeline.1 { collection := some "c" } rfl rfl,
   C5_find_defaults_and_nonempty_pipeline.2.1 _,
   C5_find_defaults_and_nonempty_pipeline.2.2.1 qpEmptyPipeA rfl rfl,
   C5_find_defaults_and_nonempty_pipeline.2.2.2.2 _ _ rfl rfl⟩

/-- C6 counterexample: an aggregation-pipeline query with no projection key
returns a document carrying the identity field, and the produced column list
contains `_id` — the `_id`-exclusion rule is applied only on the find branch
(`if not pipeline and ...`), so it does not hold for aggregation queries as
the claim states. -/
theorem C6_counterexample :
    qpAggGroup.projection = none
    ∧ truthyPipeline qpAggGroup.pipeline = true
    ∧ computeColumns qpAggGroup aggDocsWithId = ["_id", "total"]
    ∧ "_id" ∈ computeColumns qpAggGroup aggDocsWithId := by
  refine ⟨rfl, rfl, rfl, ?_⟩
  rw [show computeColumns qpAggGroup aggDocsWithId = ["_id", "total"] from rfl]
  simp

/-- C6 amended: the produced column list is the lexicographically sorted,
duplicate-free union of the keys of all returned documents, with `_id`
removed exactly when the query is a find (falsy pipeline) whose projection is
absent/empty or does not mention `_id`; for every aggregation-pipeline query
(truthy pipeline) the removal condition is off, so `_id` stays in the column
list whenever a returned document carries it. -/
theorem C6_columns_sorted_union :
    ∀ qp docs c,
      (c ∈ computeColumns qp docs ↔
        (c ∈ allFields docs ∧ ¬(c = "_id" ∧ removesId qp docs = true)))
      ∧ (computeColumns qp docs).Pairwise (fun a b => strLe a b = true)
      ∧ (computeColumns qp docs).Nodup
      ∧ (c ∈ allFields docs ↔ ∃ d, d ∈ docs ∧ c ∈ Doc.keys d)
      ∧ (truthyPipeline qp.pipeline = true → removesId qp docs = false) := by
  intro qp docs c
  refine ⟨?_, ?_, ?_, mem_allFields docs c, ?_⟩
  · by_cases hrem : removesId qp docs = true
    · rw [show computeColumns qp docs = sortStrings ((allFields docs).erase "_id") from by
        simp [computeColumns, hrem]]
      rw [(sortStrings_perm _).mem_iff,
        (nodup_allFields docs).mem_erase_iff]
      simp [hrem, and_comm, ne_comm]
    · rw [show computeColumns qp docs = sortStrings (allFields docs) from by
        simp [computeColumns, hrem]]
      rw [(sortStrings_perm _).mem_iff]
      simp [hrem]
  · exact pairwise_sortStrings _
  · by_cases hrem : removesId qp docs = true
    · rw [show computeColumns qp docs = sortStrings ((allFields docs).erase "_id") from by
        simp [computeColumns, hrem]]
      exact ((sortStrings_perm _).nodup_iff).mpr ((nodup_allFields docs).erase "_id")
    · rw [show computeColumns qp docs = sortStrings (allFields docs) from by
        simp [computeColumns, hrem]]
      exact ((sortStrings_perm _).nodup_iff).mpr (nodup_allFields docs)
  · intro hpipe
    simp [removesId, hpipe]

/-- Witness for the amended C6 at concrete inputs. -/
theorem C6_columns_sorted_union_witness :
    removesId qpAggGroup aggDocsWithId = false
    ∧ ("total" ∈ computeColumns qpAggGroup aggDocsWithId
        ↔ ("total" ∈ allFields aggDocsWithId
            ∧ ¬("total" = "_id" ∧ removesId qpAggGroup aggDocsWithId = true))) :=
  ⟨(C6_columns_sorted_union qpAggGroup aggDocsWithId "x").2.2.2.2 rfl,
   (C6_columns_sorted_union qpAggGroup aggDocsWithId "total").1⟩

/-- C4 counterexample: with a previous QueryResult in place, a failing
invocation of `sql_db_query` on a non-SELECT input returns the rejection
error but leaves both global fields holding the previous result — they do
not become empty as the claim requires of every failing invocation. -/
theorem C4_counterexample :
    (sqlDbQuery .sql "DROP TABLE artists" (fun _ => .error "not reached")
        ⟨some (.sqlRows [[MValue.vInt 1]]), some ["a"]⟩).1
      = "Error: Only SELECT queries are allowed. Please provide a SELECT statement."
    ∧ (sqlDbQuery .sql "DROP TABLE artists" (fun _ => .error "not reached")
        ⟨some (.sqlRows [[MValue.vInt 1]]), some ["a"]⟩).2
      = ⟨some (.sqlRows [[MValue.vInt 1]]), some ["a"]⟩
    ∧ ((⟨some (.sqlRows [[MValue.vInt 1]]), some ["a"]⟩ : GState)).latest_query_result.isSome
      = true :=
  ⟨rfl, rfl, rfl⟩

/-- C4 amended: the QueryResult globals are overwritten in full by every
invocation that reaches the JSON parse or the driver — cleared on malformed
JSON, on a driver exception and on an empty result, and set to exactly the
new rows/documents and columns on success — but the early validation
rejections (wrong current database mode, non-SELECT input, missing
collection name) return an error reply with the previous QueryResult left
wholly in place. -/
theorem C4_overwrite_on_execution_paths :
    ∀ (st : GState) (qp : QueryParams) (q e : String)
      (rows : List (List MValue)) (cols : List String) (docs : List Doc)
      (dbE : String → Except String (List (List MValue) × List String))
      (dbM : MongoPlan → Except String (List Doc)) (input : ParseResult),
      ((sqlDbQuery .mongo q dbE st).2 = st)
      ∧ (isSelectPrefixed q = false → (sqlDbQuery .sql q dbE st).2 = st)
      ∧ (isSelectPrefixed q = true →
          (sqlDbQuery .sql q (fun _ => .error e) st).2 = clearedState)
      ∧ (isSelectPrefixed q = true →
          (sqlDbQuery .sql q (fun _ => .ok ([], cols)) st).2 = clearedState)
      ∧ (isSelectPrefixed q = true → rows ≠ [] →
          (sqlDbQuery .sql q (fun _ => .ok (rows, cols)) st).2
            = ⟨some (.sqlRows rows), some cols⟩)
      ∧ ((mongoDbQuery .sql input dbM st).2 = st)
      ∧ ((mongoDbQuery .mongo .jsonError dbM st).2 = clearedState)
      ∧ (truthyStr qp.collection = false → (mongoDbQuery .mongo (.ok qp) dbM st).2 = st)
      ∧ (truthyStr qp.collection = true →
          (mongoDbQuery .mongo (.ok qp) (fun _ => .error e) st).2 = clearedState)
      ∧ (truthyStr qp.collection = true →
          (mongoDbQuery .mongo (.ok qp) (fun _ => .ok []) st).2 = clearedState)
      ∧ (truthyStr qp.collection = true → docs ≠ [] →
          (mongoDbQuery .mongo (.ok qp) (fun _ => .ok docs) st).2
            = ⟨some (.mongoDocs docs), some (computeColumns qp docs)⟩) := by
  intro st qp q e rows cols docs dbE dbM input
  refine ⟨rfl, ?_, ?_, ?_, ?_, rfl, rfl, ?_, ?_, ?_, ?_⟩
  · intro h
    simp [sqlDbQuery, sqlDbQueryAction, h]
  · intro h
    simp [sqlDbQuery, sqlDbQueryAction, h]
  · intro h
    simp [sqlDbQuery, sqlDbQueryAction, h]
  · intro h hr
    cases rows with
    | nil => exact absurd rfl hr
    | cons r rs => simp [sqlDbQuery, sqlDbQueryAction, h]
  · intro h
    simp [mongoDbQuery, h]
  · intro h
    simp [mongoDbQuery, h]
  · intro h
    simp [mongoDbQuery, h]
  · intro h hd
    cases docs with
    | nil => exact absurd rfl hd
    | cons d ds => simp [mongoDbQuery, h]

/-- Witness for the amended C4 at concrete inputs. -/
theorem C4_overwrite_witness :
    (sqlDbQuery .sql "SELECT a FROM t" (fun _ => .error "boom")
        ⟨some (.sqlRows [[MValue.vInt 1]]), some ["a"]⟩).2 = clearedState
    ∧ (sqlDbQuery .sql "SELECT a FROM t" (fun _ => .ok ([[MValue.vInt 2]], ["a"]))
        ⟨none, none⟩).2 = ⟨some (.sqlRows [[MValue.vInt 2]]), some ["a"]⟩
    ∧ (mongoDbQuery .mongo (.ok { collection := some "c" }) (fun _ => .ok [])
        ⟨some (.mongoDocs [[("a", MValue.vInt 1)]]), some ["a"]⟩).2 = clearedState :=
  ⟨(C4_overwrite_on_execution_paths ⟨some (.sqlRows [[MValue.vInt 1]]), some ["a"]⟩
      { collection := some "c" } "SELECT a FROM t" "boom" [] [] []
      (fun _ => .error "x") (fun _ => .ok []) .jsonError).2.2.1 rfl,
   (C4_overwrite_on_execution_paths ⟨none, none⟩
      { collection := some "c" } "SELECT a FROM t" "boom" [[MValue.vInt 2]] ["a"] []
      (fun _ => .error "x") (fun _ => .ok []) .jsonError).2.2.2.2.1 rfl (by simp),
   (C4_overwrite_on_execution_paths ⟨some (.mongoDocs [[("a", MValue.vInt 1)]]), some ["a"]⟩
      { collection := some "c" } "q" "e" [] [] []
      (fun _ => .error "x") (fun _ => .ok []) .jsonError).2.2.2.2.2.2.2.2.2.1 rfl⟩

/-- C8: a query execution whose result set is empty returns the
distinguished no-rows/no-documents text and clears both QueryResult globals,
and the pie-chart renderer invoked on the cleared state reports the
missing-precondition error. -/
theorem C8_empty_result_clears_state :
    ∀ (st : GState) (cols : List String) (qp : QueryParams) (q : String),
      (isSelectPrefixed q = true →
        sqlDbQuery .sql q (fun _ => .ok ([], cols)) st = ("(no rows returned)", clearedState))
      ∧ (truthyStr qp.collection = true →
        mongoDbQuery .mongo (.ok qp) (fun _ => .ok []) st
          = ("(no documents returned)", clearedState))
      ∧ visualizePieChartGate clearedState
          = .preconditionError "Error: No query results available. Run a query first." := by
  intro st cols qp q
  refine ⟨?_, ?_, rfl⟩
  · intro h
    simp [sqlDbQuery, sqlDbQueryAction, h]
  · intro h
    simp [mongoDbQuery, h]

/-- Witness for C8 at concrete inputs. -/
theorem C8_empty_result_witness :
    sqlDbQuery .sql "SELECT a FROM t" (fun _ => .ok ([], ["a"]))
        ⟨some (.sqlRows [[MValue.vInt 1]]), some ["a"]⟩
      = ("(no rows returned)", clearedState)
    ∧ mongoDbQuery .mongo (.ok { collection := some "c" }) (fun _ => .ok [])
        ⟨some (.mongoDocs [[("a", MValue.vInt 1)]]), some ["a"]⟩
      = ("(no documents returned)", clearedState) :=
  ⟨(C8_empty_result_clears_state ⟨some (.sqlRows [[MValue.vInt 1]]), some ["a"]⟩ ["a"]
      { collection := some "c" } "SELECT a FROM t").1 rfl,
   (C8_empty_result_clears_state ⟨some (.mongoDocs [[("a", MValue.vInt 1)]]), some ["a"]⟩ ["a"]
      { collection := some "c" } "SELECT a FROM t").2.1 rfl⟩

/-- C9: for a non-empty record set, the rendered table has exactly one body
line per record (two header lines plus one line per record), each body row
carries one cell per column (documents) respectively one cell per tuple
component (relational), and the header row carries one cell per column. -/
theorem C9_table_shape :
    ∀ (docs : List Doc) (columns : List String) (rows : List (List MValue)),
      docs ≠ [] → rows ≠ [] →
      ((mongoTableLines docs columns).length = docs.length + 2)
      ∧ (∀ d, d ∈ docs → (mongoRowCells columns d).length = columns.length)
      ∧ ((mongoHeaderCells columns).length = columns.length)
      ∧ ((sqlTableLines rows columns).length = rows.length + 2)
      ∧ (∀ r, r ∈ rows → (sqlRowCells r).length = r.length)
      ∧ ((sqlHeaderCells columns).length = columns.length) := by
  intro docs columns rows hd hr
  refine ⟨?_, ?_, rfl, ?_, ?_, ?_⟩
  · simp [mongoTableLines]
  · intro d hdm
    simp [mongoRowCells]
  · simp [sqlTableLines]
  · intro r hrm
    simp [sqlRowCells]
  · simp [sqlHeaderCells]

/-- Witness for C9 at concrete inputs. -/
theorem C9_table_shape_witness :
    (mongoTableLines [[("a", MValue.vInt 1)], [("a", MValue.vInt 2)]] ["a"]).length = 2 + 2
    ∧ (sqlTableLines [[MValue.vInt 1, MValue.vStr "x"]] ["a", "b"]).length = 1 + 2 :=
  ⟨(C9_table_shape [[("a", MValue.vInt 1)], [("a", MValue.vInt 2)]] ["a"]
      [[MValue.vInt 1, MValue.vStr "x"]] (by simp) (by simp)).1,
   (C9_table_shape [[("a", MValue.vInt 1)], [("a", MValue.vInt 2)]] ["a", "b"]
      [[MValue.vInt 1, MValue.vStr "x"]] (by simp) (by simp)).2.2.2.1⟩

end DBAssistant
